import Mathlib

/-!
# Verification of the `utils_3d` 3D geometry kernel

Shallow embedding of the repository's core (`src/vector.rs`, `src/matrix.rs`,
`src/ray_tracing/ray.rs`, `src/ray_tracing/ray_target.rs`,
`src/shapes/triangle.rs`) into Lean 4.

The source computes over `f32`; the embedding idealises `f32` arithmetic as
exact rational arithmetic (`ℚ`), which keeps every definition computable and
every concrete evaluation decidable.  The one operation with no exact rational
counterpart, `f32::sqrt`, is passed around as an explicit function parameter
`sq : ℚ → ℚ`: theorems that do not depend on the value of the square root are
proved for every `sq`, and concrete evaluations pin `sq` only at the arguments
actually reached (always `1` below, where every square root agrees that
`sq 1 = 1`).
-/

namespace Utils3d

/-- `std::f32::EPSILON = 2⁻²³`, exactly representable as a rational. -/
def EPSILON : ℚ := 1 / 2 ^ 23

/-- `Vector` (src/vector.rs): a 3-dimensional vector with `x`, `y`, `z`
components (`f32` in the source, idealised as `ℚ`). -/
@[ext] structure Vector where
  x : ℚ
  y : ℚ
  z : ℚ
  deriving DecidableEq, Repr

namespace Vector

/-- `impl Add for Vector`: component-wise addition. -/
instance : Add Vector := ⟨fun a b => ⟨a.x + b.x, a.y + b.y, a.z + b.z⟩⟩

/-- `impl Sub for Vector`: component-wise subtraction. -/
instance : Sub Vector := ⟨fun a b => ⟨a.x - b.x, a.y - b.y, a.z - b.z⟩⟩

/-- `impl Neg for Vector`: component-wise negation. -/
instance : Neg Vector := ⟨fun a => ⟨-a.x, -a.y, -a.z⟩⟩

/-- `impl Mul for Vector` (Output = f32): the dot product
`self.x * rhs.x + self.y * rhs.y + self.z * rhs.z`. -/
instance : HMul Vector Vector ℚ := ⟨fun a b => a.x * b.x + a.y * b.y + a.z * b.z⟩

/-- `impl Mul<f32> for Vector`: scaling each component by a scalar. -/
instance : HMul Vector ℚ Vector := ⟨fun a r => ⟨a.x * r, a.y * r, a.z * r⟩⟩

/-- `impl Div<f32> for Vector`: dividing each component by a scalar. -/
instance : HDiv Vector ℚ Vector := ⟨fun a r => ⟨a.x / r, a.y / r, a.z / r⟩⟩

/-- `Vector::cross`: the 3D cross product, by the component formula of the
source. -/
def cross (a b : Vector) : Vector :=
  ⟨a.y * b.z - a.z * b.y, a.z * b.x - a.x * b.z, a.x * b.y - a.y * b.x⟩

/-- `Vector::length_sq`: `self * self` (dot product with itself). -/
def length_sq (v : Vector) : ℚ := v * v

/-- `Vector::length`: `self.length_sq().sqrt()`.  The square root `sq`
(`f32::sqrt` in the source) is an explicit parameter of the embedding. -/
def length (sq : ℚ → ℚ) (v : Vector) : ℚ := sq v.length_sq

/-- `Vector::norm`: `self / self.length()`. -/
def norm (sq : ℚ → ℚ) (v : Vector) : Vector := v / v.length sq

end Vector

/-- `f32::abs`, embedded explicitly so that it evaluates by kernel
reduction. -/
def fabs (q : ℚ) : ℚ := if q < 0 then -q else q

/-- `impl PartialEq for Vector`: component-wise comparison against the fixed
absolute tolerance `std::f32::EPSILON`,
`(self.x - rhs.x).abs() <= epsilon && ...`. -/
def Vector.veq (a b : Vector) : Bool :=
  decide (fabs (a.x - b.x) ≤ EPSILON ∧ fabs (a.y - b.y) ≤ EPSILON
    ∧ fabs (a.z - b.z) ≤ EPSILON)

/-- `Triangle` (src/shapes/triangle.rs): three corner points,
`corners: [Vector; 3]`. -/
structure Triangle where
  corners : Fin 3 → Vector

namespace Triangle

/-- `Triangle::normal`: the normalized cross product of the two edge vectors
from corner 0, `(self[1] - self[0]).cross(self[2] - self[0]).norm()`. -/
def normal (sq : ℚ → ℚ) (T : Triangle) : Vector :=
  ((T.corners 1 - T.corners 0).cross (T.corners 2 - T.corners 0)).norm sq

/-- The loop body count of `Triangle::contains`: the number of unordered
corner pairs `(a, b)` — visited in order `(0,1), (0,2), (1,2)` — with
`(self[a] - point) * (self[b] - point) <= 0.0`. -/
def negCount (T : Triangle) (point : Vector) : ℕ :=
  (if (T.corners 0 - point) * (T.corners 1 - point) ≤ (0 : ℚ) then 1 else 0)
  + (if (T.corners 0 - point) * (T.corners 2 - point) ≤ (0 : ℚ) then 1 else 0)
  + (if (T.corners 1 - point) * (T.corners 2 - point) ≤ (0 : ℚ) then 1 else 0)

/-- `Triangle::contains`: `neg_count >= 2`. -/
def contains (T : Triangle) (point : Vector) : Bool :=
  decide (2 ≤ T.negCount point)

end Triangle

/-- Builds the `corners` array of a triangle from three vectors
(`Triangle::new`). -/
def tri (a b c : Vector) : Triangle :=
  ⟨fun i => match i with
    | ⟨0, _⟩ => a
    | ⟨1, _⟩ => b
    | ⟨2, _⟩ => c⟩

/-- A row of four rational entries, listed positionally.  Embeds a `[f32; 4]`
array literal. -/
def row4 (a b c d : ℚ) : Fin 4 → ℚ := fun i =>
  match i with
  | ⟨0, _⟩ => a
  | ⟨1, _⟩ => b
  | ⟨2, _⟩ => c
  | ⟨3, _⟩ => d

/-- Four rows, listed positionally.  Embeds a `[[f32; 4]; 4]` array literal. -/
def rows4 (r0 r1 r2 r3 : Fin 4 → ℚ) : Fin 4 → Fin 4 → ℚ := fun i =>
  match i with
  | ⟨0, _⟩ => r0
  | ⟨1, _⟩ => r1
  | ⟨2, _⟩ => r2
  | ⟨3, _⟩ => r3

/-- `Matrix` (src/matrix.rs): a 4×4 matrix, `data: [[f32; 4]; 4]`, row-major
(`self[row][column]`). -/
@[ext] structure Matrix where
  data : Fin 4 → Fin 4 → ℚ

namespace Matrix

/-- `Matrix::new`: all 16 entries set to 0 (`Default::default()`). -/
def new : Matrix := ⟨fun _ _ => 0⟩

/-- `Matrix::identity`: diagonal 1, everything else 0, written row by row as
in the source. -/
def identity : Matrix :=
  ⟨rows4 (row4 1 0 0 0) (row4 0 1 0 0) (row4 0 0 1 0) (row4 0 0 0 1)⟩

/-- `impl Mul for Matrix`: entry `(y, x)` accumulates
`sum += self[y][i] * rhs[i][x]` for `i = 0, 1, 2, 3` starting from `0.0`. -/
instance : HMul Matrix Matrix Matrix :=
  ⟨fun A B => ⟨fun y x =>
    (((0 + A.data y 0 * B.data 0 x) + A.data y 1 * B.data 1 x)
      + A.data y 2 * B.data 2 x) + A.data y 3 * B.data 3 x⟩⟩

/-- `impl Mul<Vector> for Matrix`: promote `rhs` to the homogeneous 4-array
`[rhs.x, rhs.y, rhs.z, 1.0]`, accumulate `out[i] += self[i][j] * rhs[j]` for
`j = 0, 1, 2, 3` starting from `0.0`, and return
`Vector::from(&out[0..3]) * (1.0 / out[3])`. -/
instance : HMul Matrix Vector Vector :=
  ⟨fun M v =>
    let rhs := row4 v.x v.y v.z 1
    let out : Fin 4 → ℚ := fun i =>
      (((0 + M.data i 0 * rhs 0) + M.data i 1 * rhs 1)
        + M.data i 2 * rhs 2) + M.data i 3 * rhs 3
    (⟨out 0, out 1, out 2⟩ : Vector) * (1 / out 3)⟩

/-- `Matrix::view` (with the square root `sq` of the embedding explicit):
basis `f = direction.norm()`, `s = up.cross(f).norm()`, `u = f.cross(s).norm()`,
translation `p = (-position * s, -position * u, -position * f)`, rows written
exactly as transcribed in the source. -/
def view (sq : ℚ → ℚ) (position direction up : Vector) : Matrix :=
  let f := direction.norm sq
  let s := (up.cross f).norm sq
  let u := (f.cross s).norm sq
  let p : Vector := ⟨(-position) * s, (-position) * u, (-position) * f⟩
  ⟨rows4
    (row4 s.x s.x s.x p.x)
    (row4 u.y u.y u.y p.y)
    (row4 f.z f.z f.z p.z)
    (row4 0 0 0 1)⟩

end Matrix

/-- `impl Mul<Matrix> for Vector` (src/vector.rs): delegates to
`Matrix * Vector` with the operands swapped, `rhs * self`. -/
instance : HMul Vector Matrix Vector := ⟨fun v M => M * v⟩

/-- `Ray` (src/ray_tracing/ray.rs): a starting point and a direction.  The
direction "should be normalized, but is not guaranteed to be". -/
structure Ray where
  start : Vector
  direction : Vector

/-- `HitInfo` (src/ray_tracing/ray_target.rs): the point and normal of a
raycasting hit, plus optional color (`Option<u32>`) and reflectiveness
(`Option<f32>`). -/
structure HitInfo where
  point : Vector
  normal : Vector
  color : Option ℕ
  reflect_factor : Option ℚ
  deriving DecidableEq

/-- An implementation of the `RayTarget` trait: the primary `hit_info` query
is the only operation a shape supplies itself. -/
structure RayTargetImpl where
  hit_info : Ray → Option HitInfo

/-- Default method `RayTarget::hit_point`:
`self.hit_info(ray).map(|info| info.point)`. -/
def RayTargetImpl.hit_point (s : RayTargetImpl) (ray : Ray) : Option Vector :=
  (s.hit_info ray).map fun info => info.point

/-- Default method `RayTarget::hits`: `self.hit_point(ray).is_some()`. -/
def RayTargetImpl.hits (s : RayTargetImpl) (ray : Ray) : Bool :=
  (s.hit_point ray).isSome

/-- `impl RayTarget for Triangle` (src/shapes/triangle.rs): plane
intersection followed by the containment test. -/
def Triangle.hit_info (sq : ℚ → ℚ) (T : Triangle) (ray : Ray) : Option HitInfo :=
  let n := T.normal sq
  let a := (T.corners 0 - ray.start) * n
  let b := ray.direction * n
  if b = 0 then none
  else
    let point := ray.start + ray.direction * a / b
    if T.contains point then
      some { point := point, normal := n, color := none, reflect_factor := none }
    else
      none

/-- The local `a` of `Triangle::hit_info`: `(self[0] - ray.start) * n`. -/
def Triangle.aParam (sq : ℚ → ℚ) (T : Triangle) (ray : Ray) : ℚ :=
  (T.corners 0 - ray.start) * T.normal sq

/-- The local `b` of `Triangle::hit_info`: `ray.direction * n`. -/
def Triangle.bParam (sq : ℚ → ℚ) (T : Triangle) (ray : Ray) : ℚ :=
  ray.direction * T.normal sq

/-- A square-root function for concrete evaluations: it agrees with the true
square root at `1`, the only argument those evaluations reach; its value
elsewhere is irrelevant to them. -/
def sq1 : ℚ → ℚ := fun q => if q = 1 then 1 else 0

/-- Follows the spec's words (§4.2, Matrix×Vector): promote the vector to
homogeneous form `(x, y, z, 1)`, apply the 4×4 transform by row-wise dot
products, then perspective-divide the first three components by the
homogeneous component. -/
def specHomogTransform (M : Matrix) (v : Vector) : Vector :=
  let h := row4 v.x v.y v.z 1
  let dot4 : (Fin 4 → ℚ) → ℚ := fun r => r 0 * h 0 + r 1 * h 1 + r 2 * h 2 + r 3 * h 3
  ⟨dot4 (M.data 0) / dot4 (M.data 3),
   dot4 (M.data 1) / dot4 (M.data 3),
   dot4 (M.data 2) / dot4 (M.data 3)⟩

end Utils3d

open Utils3d

namespace Utils3d

@[simp] theorem Vector.add_def (a b : Vector) :
    a + b = ⟨a.x + b.x, a.y + b.y, a.z + b.z⟩ := rfl

@[simp] theorem Vector.sub_def (a b : Vector) :
    a - b = ⟨a.x - b.x, a.y - b.y, a.z - b.z⟩ := rfl

@[simp] theorem Vector.neg_def (a : Vector) : -a = ⟨-a.x, -a.y, -a.z⟩ := rfl

@[simp] theorem Vector.dot_def (a b : Vector) :
    a * b = a.x * b.x + a.y * b.y + a.z * b.z := rfl

@[simp] theorem Vector.smul_def (a : Vector) (r : ℚ) :
    a * r = ⟨a.x * r, a.y * r, a.z * r⟩ := rfl

@[simp] theorem Vector.sdiv_def (a : Vector) (r : ℚ) :
    a / r = ⟨a.x / r, a.y / r, a.z / r⟩ := rfl

@[simp] theorem row4_at0 (a b c d : ℚ) : row4 a b c d 0 = a := rfl

@[simp] theorem row4_at1 (a b c d : ℚ) : row4 a b c d 1 = b := rfl

@[simp] theorem row4_at2 (a b c d : ℚ) : row4 a b c d 2 = c := rfl

@[simp] theorem row4_at3 (a b c d : ℚ) : row4 a b c d 3 = d := rfl

@[simp] theorem rows4_at0 (r0 r1 r2 r3 : Fin 4 → ℚ) : rows4 r0 r1 r2 r3 0 = r0 := rfl

@[simp] theorem rows4_at1 (r0 r1 r2 r3 : Fin 4 → ℚ) : rows4 r0 r1 r2 r3 1 = r1 := rfl

@[simp] theorem rows4_at2 (r0 r1 r2 r3 : Fin 4 → ℚ) : rows4 r0 r1 r2 r3 2 = r2 := rfl

@[simp] theorem rows4_at3 (r0 r1 r2 r3 : Fin 4 → ℚ) : rows4 r0 r1 r2 r3 3 = r3 := rfl

@[simp] theorem Matrix.mul_entry (A B : Matrix) (y x : Fin 4) :
    (A * B).data y x =
      (((0 + A.data y 0 * B.data 0 x) + A.data y 1 * B.data 1 x)
        + A.data y 2 * B.data 2 x) + A.data y 3 * B.data 3 x := rfl

@[simp] theorem Matrix.mulVec_def (M : Matrix) (v : Vector) :
    M * v =
      (⟨(((0 + M.data 0 0 * v.x) + M.data 0 1 * v.y) + M.data 0 2 * v.z) + M.data 0 3 * 1,
        (((0 + M.data 1 0 * v.x) + M.data 1 1 * v.y) + M.data 1 2 * v.z) + M.data 1 3 * 1,
        (((0 + M.data 2 0 * v.x) + M.data 2 1 * v.y) + M.data 2 2 * v.z) + M.data 2 3 * 1⟩
          : Vector)
        * (1 / ((((0 + M.data 3 0 * v.x) + M.data 3 1 * v.y) + M.data 3 2 * v.z)
            + M.data 3 3 * 1)) := rfl

@[simp] theorem tri_corners_at0 (a b c : Vector) : (tri a b c).corners 0 = a := rfl

@[simp] theorem tri_corners_at1 (a b c : Vector) : (tri a b c).corners 1 = b := rfl

@[simp] theorem tri_corners_at2 (a b c : Vector) : (tri a b c).corners 2 = c := rfl

/-- The embedded `f32::abs` is insensitive to the order of subtraction. -/
theorem fabs_sub_comm (a b : ℚ) : fabs (a - b) = fabs (b - a) := by
  unfold fabs
  split_ifs <;> linarith

/-- Shared computation: the Matrix×Vector product of the source equals the
spec-side homogeneous-transform-then-perspective-divide pipeline. -/
theorem mulVec_eq_specHomogTransform (M : Matrix) (v : Vector) :
    M * v = specHomogTransform M v := by
  simp only [Matrix.mulVec_def, specHomogTransform, row4_at0, row4_at1, row4_at2, row4_at3,
    Vector.smul_def]
  ext <;> ring

end Utils3d

/-- **C1.** `Triangle::contains(T, p)` returns `true` iff at least two of the
three unordered corner pairs `{i, j}` satisfy
`dot(T[i] - p, T[j] - p) ≤ 0` (a zero dot product — point on an edge —
counts as satisfying). -/
theorem contains_iff_two_pairs (T : Triangle) (p : Vector) :
    T.contains p = true ↔
      (((T.corners 0 - p) * (T.corners 1 - p) ≤ (0 : ℚ) ∧
        (T.corners 0 - p) * (T.corners 2 - p) ≤ (0 : ℚ)) ∨
       ((T.corners 0 - p) * (T.corners 1 - p) ≤ (0 : ℚ) ∧
        (T.corners 1 - p) * (T.corners 2 - p) ≤ (0 : ℚ)) ∨
       ((T.corners 0 - p) * (T.corners 2 - p) ≤ (0 : ℚ) ∧
        (T.corners 1 - p) * (T.corners 2 - p) ≤ (0 : ℚ))) := by
  unfold Triangle.contains Triangle.negCount
  rw [decide_eq_true_eq]
  by_cases h01 : (T.corners 0 - p) * (T.corners 1 - p) ≤ (0 : ℚ) <;>
    by_cases h02 : (T.corners 0 - p) * (T.corners 2 - p) ≤ (0 : ℚ) <;>
      by_cases h12 : (T.corners 1 - p) * (T.corners 2 - p) ≤ (0 : ℚ) <;>
        simp only [h01, h02, h12, ite_true, ite_false, if_true, if_false] <;>
          norm_num

/-- **C2.** If `b = dot(ray.direction, n)` is exactly zero, where `n` is the
triangle's unit plane normal, then `Triangle::hit_info` returns no hit
(`None`): the parallel ray is a defined degenerate outcome, not an error. -/
theorem triangle_parallel_ray_no_hit (sq : ℚ → ℚ) (T : Triangle) (r : Ray)
    (h : r.direction * T.normal sq = (0 : ℚ)) : T.hit_info sq r = none := by
  unfold Triangle.hit_info
  simp only [h, eq_self_iff_true, ite_true, if_true]

/-- Witness for C2: the triangle `(0,0,0), (1,0,0), (0,1,0)` (plane normal
`(0,0,1)`) and the ray from `(0,0,5)` in direction `(1,0,0)`, parallel to the
plane. -/
theorem triangle_parallel_ray_no_hit_witness :
    (⟨⟨0, 0, 5⟩, ⟨1, 0, 0⟩⟩ : Ray).direction
        * (tri ⟨0, 0, 0⟩ ⟨1, 0, 0⟩ ⟨0, 1, 0⟩).normal sq1 = (0 : ℚ) ∧
    (tri ⟨0, 0, 0⟩ ⟨1, 0, 0⟩ ⟨0, 1, 0⟩).hit_info sq1 ⟨⟨0, 0, 5⟩, ⟨1, 0, 0⟩⟩ = none :=
  ⟨by norm_num [Triangle.normal, Vector.norm, Vector.length, Vector.length_sq,
      Vector.cross, sq1],
   triangle_parallel_ray_no_hit sq1 (tri ⟨0, 0, 0⟩ ⟨1, 0, 0⟩ ⟨0, 1, 0⟩)
     ⟨⟨0, 0, 5⟩, ⟨1, 0, 0⟩⟩
     (by norm_num [Triangle.normal, Vector.norm, Vector.length, Vector.length_sq,
       Vector.cross, sq1])⟩

/-- **C4.** The protocol's derived queries never disagree with the primary
`hit_info` query: `hit_point` returns `some p` exactly when `hit_info`
returns a record with point `p` (and `none` exactly when `hit_info` does),
and `hits` is true exactly when `hit_point` returns `some`. -/
theorem ray_target_derived_consistent (s : RayTargetImpl) (r : Ray) :
    (∀ p, s.hit_point r = some p ↔
      ∃ info, s.hit_info r = some info ∧ info.point = p) ∧
    (s.hit_point r = none ↔ s.hit_info r = none) ∧
    (s.hits r = true ↔ ∃ p, s.hit_point r = some p) := by
  rcases h : s.hit_info r with _ | info <;>
    simp [RayTargetImpl.hit_point, RayTargetImpl.hits, h]

/-- **C6.** The Matrix×Vector product promotes the vector to homogeneous form
`(x, y, z, 1)`, applies the 4×4 transform by row-wise dot products, and
unconditionally perspective-divides the first three components by the
homogeneous component before returning a 3D vector. -/
theorem mulVec_perspective_divide (M : Matrix) (v : Vector) :
    M * v = specHomogTransform M v :=
  mulVec_eq_specHomogTransform M v

/-- **C7.** The identity matrix is a two-sided multiplicative identity for
Matrix×Matrix multiplication (here even entrywise exact, which implies
"within tolerance"). -/
theorem identity_two_sided_matrix (M : Matrix) :
    Matrix.identity * M = M ∧ M * Matrix.identity = M := by
  constructor <;>
    · ext y x
      fin_cases y <;> fin_cases x <;> simp [Matrix.identity]

/-- **C8.** The vector-on-the-left product `v * M` returns exactly the same
result as `M * v`: the Vector implementation delegates to Matrix×Vector with
the operands swapped and no transposition (the result still uses `M`'s rows,
as the second conjunct spells out). -/
theorem vector_mul_matrix_delegates (v : Vector) (M : Matrix) :
    v * M = M * v ∧ v * M = specHomogTransform M v :=
  ⟨rfl, mulVec_eq_specHomogTransform M v⟩

/-- **C9.** For a matrix whose bottom row is exactly `[0, 0, 0, 1]`, the
homogeneous component computed in `M * v` is exactly `1`, so the
unconditional perspective divide is a no-op and `M * v` is the plain affine
transform of `v` (first three rows dotted with `(x, y, z, 1)`). -/
theorem affine_bottom_row_exact (M : Matrix) (v : Vector)
    (h0 : M.data 3 0 = 0) (h1 : M.data 3 1 = 0)
    (h2 : M.data 3 2 = 0) (h3 : M.data 3 3 = 1) :
    M.data 3 0 * v.x + M.data 3 1 * v.y + M.data 3 2 * v.z + M.data 3 3 * 1 = 1 ∧
    M * v =
      ⟨M.data 0 0 * v.x + M.data 0 1 * v.y + M.data 0 2 * v.z + M.data 0 3,
       M.data 1 0 * v.x + M.data 1 1 * v.y + M.data 1 2 * v.z + M.data 1 3,
       M.data 2 0 * v.x + M.data 2 1 * v.y + M.data 2 2 * v.z + M.data 2 3⟩ := by
  constructor
  · rw [h0, h1, h2, h3]; ring
  · simp only [Matrix.mulVec_def, Vector.smul_def, h0, h1, h2, h3]
    ext <;> ring

/-- Witness for C9: the identity matrix (bottom row `[0, 0, 0, 1]`) applied
to `(1, 2, 3)`. -/
theorem affine_bottom_row_exact_witness :
    (Matrix.identity.data 3 0 = 0 ∧ Matrix.identity.data 3 1 = 0 ∧
     Matrix.identity.data 3 2 = 0 ∧ Matrix.identity.data 3 3 = 1) ∧
    Matrix.identity.data 3 0 * 1 + Matrix.identity.data 3 1 * 2
      + Matrix.identity.data 3 2 * 3 + Matrix.identity.data 3 3 * 1 = 1 ∧
    Matrix.identity * (⟨1, 2, 3⟩ : Vector) =
      ⟨Matrix.identity.data 0 0 * 1 + Matrix.identity.data 0 1 * 2
         + Matrix.identity.data 0 2 * 3 + Matrix.identity.data 0 3,
       Matrix.identity.data 1 0 * 1 + Matrix.identity.data 1 1 * 2
         + Matrix.identity.data 1 2 * 3 + Matrix.identity.data 1 3,
       Matrix.identity.data 2 0 * 1 + Matrix.identity.data 2 1 * 2
         + Matrix.identity.data 2 2 * 3 + Matrix.identity.data 2 3⟩ :=
  ⟨⟨rfl, rfl, rfl, rfl⟩,
   affine_bottom_row_exact Matrix.identity ⟨1, 2, 3⟩ rfl rfl rfl rfl⟩

/-- **C10.** Vector equality compares each component against the fixed
absolute tolerance `f32::EPSILON = 2⁻²³`; it is reflexive and symmetric but
not transitive: `(0,0,0) == (2⁻²³,0,0)` and `(2⁻²³,0,0) == (2⁻²²,0,0)` but
`(0,0,0) != (2⁻²²,0,0)`. -/
theorem veq_reflexive_symmetric_not_transitive :
    (∀ a : Vector, a.veq a = true) ∧
    (∀ a b : Vector, a.veq b = b.veq a) ∧
    ∃ a b c : Vector,
      a.veq b = true ∧ b.veq c = true ∧ a.veq c = false := by
  refine ⟨fun a => ?_, fun a b => ?_,
    ⟨0, 0, 0⟩, ⟨1 / 2 ^ 23, 0, 0⟩, ⟨1 / 2 ^ 22, 0, 0⟩,
    by norm_num [Vector.veq, fabs, EPSILON],
    by norm_num [Vector.veq, fabs, EPSILON],
    by norm_num [Vector.veq, fabs, EPSILON]⟩
  · simp [Vector.veq, fabs]
    norm_num [EPSILON]
  · unfold Vector.veq
    rw [decide_eq_decide, fabs_sub_comm a.x b.x, fabs_sub_comm a.y b.y,
      fabs_sub_comm a.z b.z]

/-- **C3.** `Triangle::hit_info` performs no non-negativity check on the
plane-intersection parameter `t = a / b`: there are a triangle and a ray with
`b ≠ 0` and `t < 0` for which `hit_info` still returns `Some`, whose point is
`start + direction * t` with `t` negative, i.e. behind the ray's origin. -/
theorem triangle_hit_behind_origin (sq : ℚ → ℚ) (hsq : sq 1 = 1) :
    ∃ (T : Triangle) (r : Ray) (info : HitInfo),
      T.bParam sq r ≠ 0 ∧
      T.aParam sq r / T.bParam sq r < 0 ∧
      T.hit_info sq r = some info ∧
      info.point = r.start + r.direction * (T.aParam sq r / T.bParam sq r) := by
  refine ⟨tri ⟨0, 0, 0⟩ ⟨1, 0, 0⟩ ⟨0, 1, 0⟩, ⟨⟨1/4, 1/4, 1⟩, ⟨0, 0, 1⟩⟩,
    ⟨⟨1/4, 1/4, 0⟩, ⟨0, 0, 1⟩, none, none⟩, ?_, ?_, ?_, ?_⟩ <;>
    norm_num [Triangle.normal, Triangle.hit_info, Triangle.contains, Triangle.negCount,
      Triangle.aParam, Triangle.bParam,
      Vector.cross, Vector.norm, Vector.length, Vector.length_sq, hsq]

/-- Witness for C3: the hypothesis on the square root is discharged at the
concrete function `sq1`. -/
theorem triangle_hit_behind_origin_witness :
    sq1 1 = 1 ∧
    ∃ (T : Triangle) (r : Ray) (info : HitInfo),
      T.bParam sq1 r ≠ 0 ∧
      T.aParam sq1 r / T.bParam sq1 r < 0 ∧
      T.hit_info sq1 r = some info ∧
      info.point = r.start + r.direction * (T.aParam sq1 r / T.bParam sq1 r) :=
  ⟨by norm_num [sq1], triangle_hit_behind_origin sq1 (by norm_num [sq1])⟩

/-- **C5, counterexample.** The claim says every output row of `Matrix::view`
holds one value "in every column" (for row 0, `s.x` in all four columns).
At position `(1,0,0)`, direction `(0,0,1)`, up `(0,1,0)` the entry in row 0,
column 3 is `-position * s = -1`, while column 0 holds `s.x = 1`. -/
theorem view_row_not_constant_in_column3 :
    (Matrix.view sq1 ⟨1, 0, 0⟩ ⟨0, 0, 1⟩ ⟨0, 1, 0⟩).data 0 3
      ≠ (Matrix.view sq1 ⟨1, 0, 0⟩ ⟨0, 0, 1⟩ ⟨0, 1, 0⟩).data 0 0 := by
  norm_num [Matrix.view, Vector.norm, Vector.length, Vector.length_sq,
    Vector.cross, sq1]

/-- **C5, amended.** `Matrix::view` populates each basis-vector output row
identically across the first three columns — row 0 holds `s.x`, row 1 holds
`u.y`, row 2 holds `f.z` — while column 3 holds the translation components
`-position * s`, `-position * u`, `-position * f`, and the bottom row is
`[0, 0, 0, 1]`. -/
theorem view_rows_broadcast_first_three_columns (sq : ℚ → ℚ)
    (position direction up : Vector) :
    let f := direction.norm sq
    let s := (up.cross f).norm sq
    let u := (f.cross s).norm sq
    let V := Matrix.view sq position direction up
    (V.data 0 0 = s.x ∧ V.data 0 1 = s.x ∧ V.data 0 2 = s.x ∧
      V.data 0 3 = (-position) * s) ∧
    (V.data 1 0 = u.y ∧ V.data 1 1 = u.y ∧ V.data 1 2 = u.y ∧
      V.data 1 3 = (-position) * u) ∧
    (V.data 2 0 = f.z ∧ V.data 2 1 = f.z ∧ V.data 2 2 = f.z ∧
      V.data 2 3 = (-position) * f) ∧
    (V.data 3 0 = 0 ∧ V.data 3 1 = 0 ∧ V.data 3 2 = 0 ∧ V.data 3 3 = 1) :=
  ⟨⟨rfl, rfl, rfl, rfl⟩, ⟨rfl, rfl, rfl, rfl⟩, ⟨rfl, rfl, rfl, rfl⟩,
    rfl, rfl, rfl, rfl⟩
